import Mathlib

/-!
Verification of `nuitka/codegen/FunctionCodes.py` (Nuitka 0.5.x code
generation for compiled function objects).

The Python module is shallowly embedded: the compilation context (the
"ledger") becomes an explicit record threaded through the functions,
`emit` becomes an accumulated list of structured code lines, and the
string-building helpers become Lean functions on `String`.

Collaborator modules that are not part of the sources
(`VariableCodes.py`, `ErrorCodes.py`, `PythonAPICodes.py`, the template
modules) are modelled minimally, each with a doc comment saying so;
claims that rest on them are flagged as spec-modelled.
-/

namespace FunctionCodes

/-- A (closure or parameter) variable: its name and whether it is shared
technically (must live in a heap cell).  Mirrors the variable objects the
front end hands to `FunctionCodes.py`; `shared` is `isSharedTechnically()`. -/
structure Variable where
  name : String
  shared : Bool
deriving DecidableEq, Repr

/-- Modelled from the spec: `getVariableCodeName` lives in
`VariableCodes.py`, which is not among the sources.  It renders the
code-level name of a variable; we model it as returning the variable's
name unchanged (the claims only use it as an opaque name renderer). -/
def getVariableCodeName (in_context : Bool) (variable' : Variable) : String :=
  variable'.name

/-- Modelled from the spec: `getVariableCode` lives in `VariableCodes.py`,
which is not among the sources.  It renders the access expression for a
variable at a call site; modelled as the variable's name. -/
def getVariableCode (variable' : Variable) : String :=
  variable'.name

/-- The compilation context ("ledger"): per-identity helper code and
declarations, and the cleanup-obligation temp names.  Mirrors the parts
of `Contexts.py` that `FunctionCodes.py` reads and writes. -/
structure CGState where
  helper_codes : List (String × String)
  declarations : List (String × String)
  cleanup_names : List String
deriving DecidableEq, Repr

/-- `context.hasHelperCode(key)`. -/
def hasHelperCode (s : CGState) (key : String) : Bool :=
  s.helper_codes.any (fun p => p.1 == key)

/-- `context.addHelperCode(key, code)`. -/
def addHelperCode (s : CGState) (key code : String) : CGState :=
  { s with helper_codes := s.helper_codes ++ [(key, code)] }

/-- `context.addDeclaration(key, decl)`. -/
def addDeclaration (s : CGState) (key decl : String) : CGState :=
  { s with declarations := s.declarations ++ [(key, decl)] }

/-- `context.needsCleanup(name)` for a name that is present. -/
def needsCleanup (s : CGState) (name : String) : Bool :=
  s.cleanup_names.contains name

/-- `context.needsCleanup(name)` where the Python argument may be `None`
(a `None` temp name is never a cleanup obligation). -/
def needsCleanupOpt (s : CGState) : Option String → Bool
  | none => false
  | some n => needsCleanup s n

/-- `context.removeCleanupTempName(name)`. -/
def removeCleanupTempName (s : CGState) (name : String) : CGState :=
  { s with cleanup_names := s.cleanup_names.erase name }

/-- `context.addCleanupTempName(name)`. -/
def addCleanupTempName (s : CGState) (name : String) : CGState :=
  { s with cleanup_names := s.cleanup_names ++ [name] }

/-- One emitted line of generated C code, kept structured so that theorems
can speak about the kind and contents of each line; `render` recovers the
exact text the Python code emits. -/
inductive CodeLine where
  | makeFunctionCall (to_name function_identifier args : String)
  | increfLine (name : String)
  | decrefLine (name : String)
  | directCallLine (to_name entry_identifier args : String)
  | errorCheckLine (name : String)
deriving DecidableEq, Repr

/-- The exact text of each structured line, as the format strings in
`FunctionCodes.py` produce it. -/
def CodeLine.render : CodeLine → String
  | .makeFunctionCall t f a => t ++ " = MAKE_FUNCTION_" ++ f ++ "( " ++ a ++ " );"
  | .increfLine n => "Py_INCREF( " ++ n ++ " );"
  | .decrefLine n => "Py_DECREF( " ++ n ++ " );"
  | .directCallLine t f a => t ++ " = " ++ f ++ "( " ++ a ++ " );"
  | .errorCheckLine n => "// error exit check for " ++ n

/-- `", ".join(...)`. -/
def joinComma (xs : List String) : String :=
  String.intercalate ", " xs

/-- `getClosureVariableProvisionCode` (lines 86-97): one access expression
per closure variable, in order. -/
def getClosureVariableProvisionCode (closure_variables : List Variable) : List String :=
  closure_variables.map getVariableCode

/-- `_getFunctionCreationArgs` (lines 100-123): the constructor's formal
argument list — defaults, kw-defaults, annotations pointers when present,
then one cell parameter per closure variable, in source order. -/
def _getFunctionCreationArgs (defaults_name kw_defaults_name annotations_name : Option String)
    (closure_variables : List Variable) : List String :=
  (if defaults_name.isSome then ["PyObject *defaults"] else [])
  ++ (if kw_defaults_name.isSome then ["PyObject *kw_defaults"] else [])
  ++ (if annotations_name.isSome then ["PyObject *annotations"] else [])
  ++ closure_variables.map (fun v => "PyCellObject *" ++ getVariableCodeName true v)

/-- Count 1 for a present optional name, 0 for an absent one. -/
def presentCount (o : Option String) : Nat :=
  if o.isSome then 1 else 0

/-- Modelled from the spec: `getReferenceExportCode` lives in
`PythonAPICodes.py`, which is not among the sources.  It renders the
expression exporting a reference for the defaults argument; modelled as
the plain temp name (the claims never inspect this text). -/
def getReferenceExportCode (name : String) : String :=
  name

/-- Modelled from the spec: `getReleaseCode` lives in `ErrorCodes.py`,
which is not among the sources.  Per the spec's ownership rule the caller
"releases" a temp name: when the name is present and a tracked cleanup
obligation, a `Py_DECREF` line is emitted and the name leaves the cleanup
ledger; a `None` or untracked name produces nothing. -/
def getReleaseCode (release_name : Option String) (s : CGState) : CGState × List CodeLine :=
  match release_name with
  | none => (s, [])
  | some n =>
    if needsCleanup s n then
      (removeCleanupTempName s n, [CodeLine.decrefLine n])
    else
      (s, [])

/-- `getFunctionCreationCode` (lines 415-448): build the argument list
(defaults / kw-defaults / annotations when present, then closure
provisions), emit the single `MAKE_FUNCTION_<identifier>` call line, drop
defaults and kw-defaults from the cleanup ledger when tracked, and record
the result name as a new cleanup obligation. -/
def getFunctionCreationCode (to_name function_identifier : String)
    (defaults_name kw_defaults_name annotations_name : Option String)
    (closure_variables : List Variable) (s : CGState) : CGState × List CodeLine :=
  let args : List String :=
    (match defaults_name with
     | some d => [getReferenceExportCode d]
     | none => [])
    ++ (match kw_defaults_name with
        | some k => [k]
        | none => [])
    ++ (match annotations_name with
        | some a => [a]
        | none => [])
    ++ getClosureVariableProvisionCode closure_variables
  let emitted := [CodeLine.makeFunctionCall to_name function_identifier (joinComma args)]
  let s1 := if needsCleanupOpt s defaults_name then
              removeCleanupTempName s (defaults_name.getD "") else s
  let s2 := if needsCleanupOpt s1 kw_defaults_name then
              removeCleanupTempName s1 (kw_defaults_name.getD "") else s1
  let s3 := addCleanupTempName s2 to_name
  (s3, emitted)

/-- One request to create the same callable: the destination temp and the
(already generated) optional defaults / kw-defaults / annotations temp
names of this call site. -/
structure CreationRequest where
  to_name : String
  defaults_name : Option String
  kw_defaults_name : Option String
  annotations_name : Option String
deriving DecidableEq, Repr

/-- The tail of `generateFunctionCreationCode` (lines 338-412), after the
defaults / kw-defaults / annotations temp names have been produced: emit
the maker body and declaration into the context only when the identity
has no helper code yet, then emit the constructor call, then release the
annotations temp.  `maker_code` and `function_decl` stand for the results
of `getFunctionMakerCode` / `getFunctionMakerDecl` (collaborator-heavy
text whose contents this step only stores). -/
def generateFunctionCreationCodeCore (function_identifier maker_code function_decl : String)
    (req : CreationRequest) (closure_variables : List Variable)
    (s : CGState) : CGState × List CodeLine :=
  let s1 := if hasHelperCode s function_identifier then s
            else addDeclaration (addHelperCode s function_identifier maker_code)
                   function_identifier function_decl
  let p2 := getFunctionCreationCode req.to_name function_identifier
              req.defaults_name req.kw_defaults_name req.annotations_name
              closure_variables s1
  let p3 := getReleaseCode req.annotations_name p2.1
  (p3.1, p2.2 ++ p3.2)

/-- A whole compilation unit's worth of creation requests for one callable
identity, run in sequence, accumulating the emitted lines. -/
def runCreationRequests (function_identifier maker_code function_decl : String)
    (closure_variables : List Variable) :
    List CreationRequest → CGState → CGState × List CodeLine
  | [], s => (s, [])
  | req :: rest, s =>
    let p := generateFunctionCreationCodeCore function_identifier maker_code function_decl
               req closure_variables s
    let q := runCreationRequests function_identifier maker_code function_decl
               closure_variables rest p.1
    (q.1, p.2 ++ q.2)

/-- Modelled from the spec: `getErrorExitCode` lives in `ErrorCodes.py`,
which is not among the sources.  It emits the conditional error-check
fragment exactly when the call `needs_check`; it does not alter the
cleanup ledger. -/
def getErrorExitCode (check_name : String) (needs_check : Bool) : List CodeLine :=
  if needs_check then [CodeLine.errorCheckLine check_name] else []

/-- The pre-call argument loop of `getDirectFunctionCallCode`
(lines 466-470): each argument already on the cleanup ledger is removed
from it (ownership transferred, no increment); any other argument gets a
`Py_INCREF` line. -/
def directCallArgLoop : List String → CGState → CGState × List CodeLine
  | [], s => (s, [])
  | a :: rest, s =>
    if needsCleanup s a then
      directCallArgLoop rest (removeCleanupTempName s a)
    else
      let p := directCallArgLoop rest s
      (p.1, CodeLine.increfLine a :: p.2)

/-- The post-call argument loop of `getDirectFunctionCallCode`
(lines 483-485): arguments still tracked are removed from the ledger. -/
def directCallPostLoop : List String → CGState → CGState
  | [], s => s
  | a :: rest, s =>
    if needsCleanup s a then
      directCallPostLoop rest (removeCleanupTempName s a)
    else
      directCallPostLoop rest s

/-- `getDirectFunctionCallCode` (lines 451-494): transfer or increment
each explicit argument, emit the direct call with closure provisions
appended, remove any still-tracked arguments, emit the error-exit check
when needed, and track the result as a cleanup obligation.  The entry
identifier stands for `getDirectFunctionEntryPointIdentifier`'s result
(from `ParameterParsing.py`, a collaborator). -/
def getDirectFunctionCallCode (to_name entry_identifier : String)
    (arg_names : List String) (closure_variables : List Variable)
    (needs_check : Bool) (s : CGState) : CGState × List CodeLine :=
  let suffix_args := getClosureVariableProvisionCode closure_variables
  let p1 := directCallArgLoop arg_names s
  let call := CodeLine.directCallLine to_name entry_identifier
                (joinComma (arg_names ++ suffix_args))
  let s2 := directCallPostLoop arg_names p1.1
  let errs := getErrorExitCode to_name needs_check
  (addCleanupTempName s2 to_name, p1.2 ++ [call] ++ errs)

/-- Modelled from the spec: the generator exit templates live in
`CodeTemplatesGeneratorFunction.py`, which is not among the sources.
Per the spec they are three distinct, well-formed fragments (exception
exit, no-exception normal exit, generator-protocol return exit), so we
model them as distinct atoms. -/
inductive GenExitTemplate where
  | exceptionExit
  | noexceptionExit
  | returnExit
deriving DecidableEq, Repr

/-- The exit composition shared by `getGeneratorFunctionCode`
(lines 767-773) and `getGeneratorObjectCode` (lines 924-930): the
exception exit when `needs_exception_exit` else the no-exception exit,
with the generator-return exit appended when `needs_generator_return`. -/
def generatorExit (needs_exception_exit needs_generator_return : Bool) : List GenExitTemplate :=
  (if needs_exception_exit then [GenExitTemplate.exceptionExit]
   else [GenExitTemplate.noexceptionExit])
  ++ (if needs_generator_return then [GenExitTemplate.returnExit] else [])

/-- One line of the `parameter_copy` block of `getGeneratorFunctionCode`
(lines 790-804): slot `count` is a freshly boxed cell for a technically
shared parameter, a plain reference copy otherwise. -/
def parameterCopyLine (count : Nat) (variable' : Variable) : String :=
  if variable'.shared then
    "parameters[" ++ toString count ++ "] = (PyObject *)PyCell_NEW1( _python_par_"
      ++ variable'.name ++ " );"
  else
    "parameters[" ++ toString count ++ "] = _python_par_" ++ variable'.name ++ ";"

/-- The `parameter_copy` list built by enumerating the parameter
variables (lines 788-804). -/
def parameterCopy (parameter_variables : List Variable) : List String :=
  parameter_variables.enum.map (fun p => parameterCopyLine p.1 p.2)

/-- Modelled from the spec: the parameters-array declaration templates
live in `CodeTemplatesGeneratorFunction.py`, which is not among the
sources.  The with-parameters template declares the object-owned
parameter array and holds the copy block; the no-parameters template
declares no array. -/
inductive ParametersDecl where
  | withParameters (parameter_copy : List String) (parameter_count : Nat)
  | noParameters
deriving DecidableEq, Repr

/-- The parameters-array choice of `getGeneratorFunctionCode`
(lines 784-811): the with-parameters template filled with the copy block
when the count is positive, else the no-parameters template. -/
def parametersDecl (parameter_variables : List Variable) : ParametersDecl :=
  if 0 < parameter_variables.length then
    ParametersDecl.withParameters (parameterCopy parameter_variables)
      parameter_variables.length
  else
    ParametersDecl.noParameters

/-- The exit parts of a plain function body (`getFunctionCode`,
lines 633-654): the must-not-get-here guard, then optional exception and
return-value exits.  The guard text comes from `ErrorCodes.py` (a
collaborator) and the exit templates from `CodeTemplatesFunction.py`;
both are modelled as atoms. -/
inductive FnExitPart where
  | mustNotGetHere
  | exceptionExit
  | returnExit
deriving DecidableEq, Repr

/-- The exit-section composition of `getFunctionCode` (lines 633-654):
always the must-not-get-here guard first, the exception exit appended iff
`needs_exception_exit`, the return exit appended iff the context holds a
`return_value` temp name. -/
def functionExit (needs_exception_exit has_return_value_temp : Bool) : List FnExitPart :=
  [FnExitPart.mustNotGetHere]
  ++ (if needs_exception_exit then [FnExitPart.exceptionExit] else [])
  ++ (if has_return_value_temp then [FnExitPart.returnExit] else [])

/-- The qualified-name slot of `getFunctionMakerCode` (lines 159-165):
`NULL` when the runtime version predates 3.3.0 (encoded `330`) or the
qualified name equals the plain name; otherwise the constant code of the
qualified name (`qualname_constant_code` stands for `getConstantCode`'s
result, from `ConstantCodes.py`, a collaborator). -/
def function_qualname_obj (python_version : Nat) (function_qualname function_name : String)
    (qualname_constant_code : String) : String :=
  if python_version < 330 || function_qualname == function_name then "NULL"
  else qualname_constant_code

/-- The qualified-name slot of `generateMakeGeneratorObjectCode`
(lines 993-999), the same decision for generators. -/
def generator_qualname_obj (python_version : Nat) (generator_qualname generator_name : String)
    (qualname_constant_code : String) : String :=
  if python_version < 330 || generator_qualname == generator_name then "NULL"
  else qualname_constant_code

/-- The capability the version comparison realizes: CPython grew
qualified names (`__qualname__`) in 3.3, so a target runtime supports
them exactly when its encoded version is at least 330. -/
def hasQualnameSupport (python_version : Nat) : Bool :=
  330 ≤ python_version

/-- A static constant as the front end reports it: a mapping (keyword
defaults) with ordered entries, or any non-mapping value.  Python's
`x != \x7b\x7d` holds for every non-dict `x` and every non-empty dict. -/
inductive PyConstant where
  | dict (entries : List (String × String))
  | nonDict (text : String)
deriving DecidableEq, Repr

/-- The keyword-defaults expression as `handleKwDefaults` inspects it:
whether it `isExpressionConstantRef()` and, when so, its `getConstant()`
value (for a non-constant expression the `constant` field is unused). -/
structure KwDefaultsExpr where
  is_constant_ref : Bool
  constant : PyConstant
deriving DecidableEq, Repr

/-- `handleKwDefaults` inside `generateFunctionCreationCode`
(lines 284-301): a present keyword-defaults expression that is a
constant reference equal to the empty dict trips the assertion (modelled
as `Except.error`); otherwise a temp name is allocated and the
expression's code generated (a collaborator), yielding the temp name. -/
def handleKwDefaults (kw_defaults : Option KwDefaultsExpr) : Except String (Option String) :=
  match kw_defaults with
  | some kd =>
    if kd.is_constant_ref && kd.constant == PyConstant.dict [] then
      Except.error "statically empty kw_defaults must be elided upstream"
    else
      Except.ok (some "tmp_kw_defaults")
  | none => Except.ok none

/-- The four maker templates `getFunctionMakerCode` chooses among
(lines 189-192 and 232-235): with/without captured context crossed with
generator/plain function.  The template texts live in collaborator
modules; the choice is what the source decides. -/
inductive MakerTemplate where
  | genfuncWithContext
  | functionWithContext
  | genfuncWithoutContext
  | functionWithoutContext
deriving DecidableEq, Repr

/-- The claim-relevant slots `getFunctionMakerCode` computes for the
chosen template; the remaining slots (name object, doc, parameter-entry
identifiers, module access, context copy) are threaded-through
collaborator results. -/
structure MakerSlots where
  template : MakerTemplate
  function_qualname_obj : String
  defaults : String
  kw_defaults : String
  annotations : String
deriving DecidableEq, Repr

/-- `getFunctionMakerCode` (lines 144-274): compute the qualified-name
slot (lines 159-165), then branch on closure presence; in both branches
the defaults and kw-defaults slots take the parameter name when the temp
name is present and the literal `NULL` otherwise, while the annotations
slot falls back to the constant code of an empty dict
(`empty_dict_constant_code` stands for `context.getConstantCode` applied
to the empty dict). -/
def getFunctionMakerCode (python_version : Nat)
    (function_name function_qualname qualname_constant_code : String)
    (closure_variables : List Variable)
    (defaults_name kw_defaults_name annotations_name : Option String)
    (empty_dict_constant_code : String) (is_generator : Bool) : MakerSlots :=
  let fq := if python_version < 330 || function_qualname == function_name then "NULL"
            else qualname_constant_code
  match closure_variables with
  | _ :: _ =>
    { template := if is_generator then MakerTemplate.genfuncWithContext
                  else MakerTemplate.functionWithContext
      function_qualname_obj := fq
      defaults := if defaults_name.isSome then "defaults" else "NULL"
      kw_defaults := if kw_defaults_name.isSome then "kw_defaults" else "NULL"
      annotations := if annotations_name.isSome then "annotations"
                     else empty_dict_constant_code }
  | [] =>
    { template := if is_generator then MakerTemplate.genfuncWithoutContext
                  else MakerTemplate.functionWithoutContext
      function_qualname_obj := fq
      defaults := if defaults_name.isSome then "defaults" else "NULL"
      kw_defaults := if kw_defaults_name.isSome then "kw_defaults" else "NULL"
      annotations := if annotations_name.isSome then "annotations"
                     else empty_dict_constant_code }

/-- How many helper-code entries the context holds under a key. -/
def countHelper (s : CGState) (key : String) : Nat :=
  (s.helper_codes.filter (fun p => p.1 == key)).length

/-- How many declarations the context holds under a key. -/
def countDecl (s : CGState) (key : String) : Nat :=
  (s.declarations.filter (fun p => p.1 == key)).length

/-- Whether a line is the constructor-invocation line. -/
def isMakeFunctionCall : CodeLine → Bool
  | CodeLine.makeFunctionCall _ _ _ => true
  | _ => false

/-! ## Helper lemmas about the cleanup ledger -/

lemma needsCleanup_iff (s : CGState) (n : String) :
    needsCleanup s n = true ↔ n ∈ s.cleanup_names := by
  simp [needsCleanup, List.elem_iff]

/-- Effect of one conditional removal step, as `getFunctionCreationCode`
performs it: on a duplicate-free ledger the step keeps it duplicate-free
and its members are exactly the old members other than the removed
name. -/
lemma eraseStep_spec (s : CGState) (b : String) (hs : s.cleanup_names.Nodup) :
    ((if needsCleanup s b then removeCleanupTempName s b else s).cleanup_names.Nodup)
    ∧ (∀ x, x ∈ (if needsCleanup s b then removeCleanupTempName s b
          else s).cleanup_names ↔ (x ∈ s.cleanup_names ∧ x ≠ b)) := by
  by_cases h : needsCleanup s b
  · simp only [h, if_true, removeCleanupTempName]
    refine ⟨List.Nodup.erase b hs, fun x => ?_⟩
    rw [List.Nodup.mem_erase_iff hs]
    tauto
  · have hb : b ∉ s.cleanup_names := by
      intro hmem
      exact h ((needsCleanup_iff s b).mpr hmem)
    simp only [h, if_false]
    refine ⟨hs, fun x => ?_⟩
    constructor
    · intro hx
      exact ⟨hx, fun he => hb (he ▸ hx)⟩
    · exact fun hx => hx.1

/-- The ledger after `getFunctionCreationCode` with all three optional
names present: duplicate-free, and its members are the result name plus
the old members other than defaults and kw-defaults. -/
lemma creation_cleanup_spec (to_name function_identifier dn kn an : String)
    (closure_variables : List Variable) (s0 : CGState)
    (hnodup : s0.cleanup_names.Nodup) (hto : to_name ∉ s0.cleanup_names) :
    ((getFunctionCreationCode to_name function_identifier (some dn) (some kn)
        (some an) closure_variables s0).1.cleanup_names.Nodup)
    ∧ (∀ x, x ∈ (getFunctionCreationCode to_name function_identifier (some dn)
          (some kn) (some an) closure_variables s0).1.cleanup_names
        ↔ (x = to_name ∨ (x ∈ s0.cleanup_names ∧ x ≠ dn ∧ x ≠ kn))) := by
  have h1 := eraseStep_spec s0 dn hnodup
  have h2 := eraseStep_spec (if needsCleanup s0 dn then removeCleanupTempName s0 dn
    else s0) kn h1.1
  have hmem2 : ∀ x, x ∈ (if needsCleanup (if needsCleanup s0 dn then
        removeCleanupTempName s0 dn else s0) kn then
        removeCleanupTempName (if needsCleanup s0 dn then removeCleanupTempName s0 dn
          else s0) kn
        else (if needsCleanup s0 dn then removeCleanupTempName s0 dn
          else s0)).cleanup_names
      ↔ ((x ∈ s0.cleanup_names ∧ x ≠ dn) ∧ x ≠ kn) := by
    intro x
    rw [h2.2 x, h1.2 x]
  have hshape : (getFunctionCreationCode to_name function_identifier (some dn)
      (some kn) (some an) closure_variables s0).1
      = addCleanupTempName (if needsCleanup (if needsCleanup s0 dn then
          removeCleanupTempName s0 dn else s0) kn then
          removeCleanupTempName (if needsCleanup s0 dn then removeCleanupTempName s0 dn
            else s0) kn
          else (if needsCleanup s0 dn then removeCleanupTempName s0 dn
            else s0)) to_name := rfl
  rw [hshape]
  constructor
  · simp only [addCleanupTempName, List.nodup_append]
    refine ⟨h2.1, List.nodup_singleton to_name, ?_⟩
    intro x hx hx'
    have hx0 : x ∈ s0.cleanup_names := ((hmem2 x).mp hx).1.1
    have : x = to_name := List.mem_singleton.mp hx'
    exact hto (this ▸ hx0)
  · intro x
    simp only [addCleanupTempName, List.mem_append, List.mem_singleton]
    rw [hmem2 x]
    tauto

/-- Full description of the pre-call argument loop of a direct call: the
surviving ledger entries are the old ones not named as arguments, the
emitted lines are exactly one `Py_INCREF` per argument that was not
already a cleanup obligation, and nothing else is emitted. -/
lemma directCallArgLoop_spec (arg_names : List String) (s : CGState)
    (hs : s.cleanup_names.Nodup) (ha : arg_names.Nodup) :
    ((directCallArgLoop arg_names s).1.cleanup_names.Nodup)
    ∧ (∀ x, x ∈ (directCallArgLoop arg_names s).1.cleanup_names ↔
        (x ∈ s.cleanup_names ∧ x ∉ arg_names))
    ∧ (∀ x, CodeLine.increfLine x ∈ (directCallArgLoop arg_names s).2 ↔
        (x ∈ arg_names ∧ x ∉ s.cleanup_names))
    ∧ (∀ l ∈ (directCallArgLoop arg_names s).2, ∃ x, l = CodeLine.increfLine x) := by
  induction arg_names generalizing s with
  | nil =>
    refine ⟨by simpa [directCallArgLoop] using hs, ?_, ?_, ?_⟩ <;>
      simp [directCallArgLoop]
  | cons a rest ih =>
    have hanotin : a ∉ rest := (List.nodup_cons.mp ha).1
    have hrest : rest.Nodup := (List.nodup_cons.mp ha).2
    by_cases h : needsCleanup s a
    · have hain : a ∈ s.cleanup_names := (needsCleanup_iff _ _).mp h
      have herase : (removeCleanupTempName s a).cleanup_names.Nodup := by
        simpa [removeCleanupTempName] using List.Nodup.erase a hs
      obtain ⟨n1, m1, e1, sh1⟩ := ih (removeCleanupTempName s a) herase hrest
      have hstep : directCallArgLoop (a :: rest) s
          = directCallArgLoop rest (removeCleanupTempName s a) := by
        simp [directCallArgLoop, h]
      rw [hstep]
      have hmem : ∀ x, x ∈ (removeCleanupTempName s a).cleanup_names
          ↔ (x ≠ a ∧ x ∈ s.cleanup_names) := by
        intro x
        simpa [removeCleanupTempName] using List.Nodup.mem_erase_iff hs
      refine ⟨n1, fun x => ?_, fun x => ?_, sh1⟩
      · rw [m1 x, hmem x]
        by_cases hxa : x = a <;> simp [hxa]
      · rw [e1 x]
        by_cases hxa : x = a
        · subst hxa
          simp [hanotin, hain, hmem x]
        · simp only [hmem x, List.mem_cons]
          constructor
          · rintro ⟨hxr, hxne⟩
            exact ⟨Or.inr hxr, fun hxs => hxne ⟨hxa, hxs⟩⟩
          · rintro ⟨rfl | hxr, hxs⟩
            · exact absurd rfl hxa
            · exact ⟨hxr, fun hc => hxs hc.2⟩
    · have hain : a ∉ s.cleanup_names := fun hc => h ((needsCleanup_iff _ _).mpr hc)
      obtain ⟨n1, m1, e1, sh1⟩ := ih s hs hrest
      have hstep : directCallArgLoop (a :: rest) s
          = ((directCallArgLoop rest s).1,
             CodeLine.increfLine a :: (directCallArgLoop rest s).2) := by
        simp [directCallArgLoop, h]
      rw [hstep]
      refine ⟨n1, fun x => ?_, fun x => ?_, fun l hl => ?_⟩
      · rw [m1 x]
        by_cases hxa : x = a
        · subst hxa
          simp [hain]
        · simp [hxa]
      · simp only [List.mem_cons, CodeLine.increfLine.injEq]
        rw [e1 x]
        by_cases hxa : x = a
        · subst hxa
          simp [hain]
        · simp [hxa]
      · rcases List.mem_cons.mp hl with hl | hl
        · exact ⟨a, hl⟩
        · exact sh1 l hl

/-- The post-call loop only shrinks the ledger. -/
lemma directCallPostLoop_subset (arg_names : List String) (s : CGState) :
    ∀ x, x ∈ (directCallPostLoop arg_names s).cleanup_names →
      x ∈ s.cleanup_names := by
  induction arg_names generalizing s with
  | nil => simp [directCallPostLoop]
  | cons a rest ih =>
    intro x hx
    by_cases h : needsCleanup s a
    · have := ih (removeCleanupTempName s a) x (by simpa [directCallPostLoop, h] using hx)
      exact List.mem_of_mem_erase (by simpa [removeCleanupTempName] using this)
    · exact ih s x (by simpa [directCallPostLoop, h] using hx)

/-- The post-call loop keeps every ledger entry that is not an argument. -/
lemma directCallPostLoop_keeps (arg_names : List String) (s : CGState) (x : String)
    (hx : x ∈ s.cleanup_names) (hxa : x ∉ arg_names) :
    x ∈ (directCallPostLoop arg_names s).cleanup_names := by
  induction arg_names generalizing s with
  | nil => simpa [directCallPostLoop] using hx
  | cons a rest ih =>
    have hxna : x ≠ a := fun hc => hxa (hc ▸ List.mem_cons_self a rest)
    have hxrest : x ∉ rest := fun hc => hxa (List.mem_cons_of_mem a hc)
    by_cases h : needsCleanup s a
    · have hx' : x ∈ (removeCleanupTempName s a).cleanup_names := by
        simpa [removeCleanupTempName, List.mem_erase_of_ne hxna] using hx
      simpa [directCallPostLoop, h] using ih (removeCleanupTempName s a) hx' hxrest
    · simpa [directCallPostLoop, h] using ih s hx hxrest

/-- `getFunctionCreationCode` only touches the cleanup ledger: helper
codes and declarations are unchanged. -/
lemma creation_keeps_helpers (to_name function_identifier : String)
    (defaults_name kw_defaults_name annotations_name : Option String)
    (closure_variables : List Variable) (s : CGState) :
    (getFunctionCreationCode to_name function_identifier defaults_name
        kw_defaults_name annotations_name closure_variables s).1.helper_codes
      = s.helper_codes
    ∧ (getFunctionCreationCode to_name function_identifier defaults_name
        kw_defaults_name annotations_name closure_variables s).1.declarations
      = s.declarations := by
  constructor <;>
    simp only [getFunctionCreationCode, addCleanupTempName] <;>
    split <;> split <;> simp [removeCleanupTempName]

/-- `getReleaseCode` only touches the cleanup ledger, and never emits a
constructor call. -/
lemma release_keeps_helpers (release_name : Option String) (s : CGState) :
    (getReleaseCode release_name s).1.helper_codes = s.helper_codes
    ∧ (getReleaseCode release_name s).1.declarations = s.declarations
    ∧ (getReleaseCode release_name s).2.filter isMakeFunctionCall = [] := by
  rcases release_name with _ | n
  · simp [getReleaseCode]
  · by_cases h : needsCleanup s n <;>
      simp [getReleaseCode, h, removeCleanupTempName, isMakeFunctionCall]

/-- `hasHelperCode` reads only the helper-code entries. -/
lemma hasHelperCode_congr {s s' : CGState} (key : String)
    (h : s'.helper_codes = s.helper_codes) :
    hasHelperCode s' key = hasHelperCode s key := by
  simp [hasHelperCode, h]

/-- `hasHelperCode` through an explicit helper-code list. -/
lemma hasHelperCode_of_eq {s : CGState} {l : List (String × String)} (key : String)
    (h : s.helper_codes = l) :
    hasHelperCode s key = l.any (fun p => p.1 == key) := by
  simp [hasHelperCode, h]

/-- One `generateFunctionCreationCodeCore` step: helper codes and
declarations gain exactly the one entry, and only when the identity is
fresh, after which the identity is always registered. -/
lemma core_helper_effect (function_identifier maker_code function_decl : String)
    (req : CreationRequest) (closure_variables : List Variable) (s : CGState) :
    (generateFunctionCreationCodeCore function_identifier maker_code function_decl
        req closure_variables s).1.helper_codes
      = (if hasHelperCode s function_identifier then s.helper_codes
         else s.helper_codes ++ [(function_identifier, maker_code)])
    ∧ (generateFunctionCreationCodeCore function_identifier maker_code function_decl
        req closure_variables s).1.declarations
      = (if hasHelperCode s function_identifier then s.declarations
         else s.declarations ++ [(function_identifier, function_decl)])
    ∧ hasHelperCode (generateFunctionCreationCodeCore function_identifier maker_code
        function_decl req closure_variables s).1 function_identifier = true := by
  have hrel := release_keeps_helpers req.annotations_name
    (getFunctionCreationCode req.to_name function_identifier req.defaults_name
      req.kw_defaults_name req.annotations_name closure_variables
      (if hasHelperCode s function_identifier then s
       else addDeclaration (addHelperCode s function_identifier maker_code)
         function_identifier function_decl)).1
  have hcre := creation_keeps_helpers req.to_name function_identifier
    req.defaults_name req.kw_defaults_name req.annotations_name closure_variables
    (if hasHelperCode s function_identifier then s
     else addDeclaration (addHelperCode s function_identifier maker_code)
       function_identifier function_decl)
  have hshape : (generateFunctionCreationCodeCore function_identifier maker_code
      function_decl req closure_variables s).1
      = (getReleaseCode req.annotations_name
          (getFunctionCreationCode req.to_name function_identifier req.defaults_name
            req.kw_defaults_name req.annotations_name closure_variables
            (if hasHelperCode s function_identifier then s
             else addDeclaration (addHelperCode s function_identifier maker_code)
               function_identifier function_decl)).1).1 := rfl
  have h1 : (generateFunctionCreationCodeCore function_identifier maker_code
      function_decl req closure_variables s).1.helper_codes
      = (if hasHelperCode s function_identifier then s.helper_codes
         else s.helper_codes ++ [(function_identifier, maker_code)]) := by
    rw [hshape, hrel.1, hcre.1]
    by_cases h : hasHelperCode s function_identifier <;>
      simp [h, addDeclaration, addHelperCode]
  have h2 : (generateFunctionCreationCodeCore function_identifier maker_code
      function_decl req closure_variables s).1.declarations
      = (if hasHelperCode s function_identifier then s.declarations
         else s.declarations ++ [(function_identifier, function_decl)]) := by
    rw [hshape, hrel.2.1, hcre.2]
    by_cases h : hasHelperCode s function_identifier <;>
      simp [h, addDeclaration, addHelperCode]
  refine ⟨h1, h2, ?_⟩
  rw [hasHelperCode_of_eq function_identifier h1]
  by_cases h : hasHelperCode s function_identifier
  · simp only [h, if_true]
    simpa [hasHelperCode] using h
  · simp [h]

/-- One `generateFunctionCreationCodeCore` step emits exactly one
constructor-call line, and every constructor-call line it emits names
this identity's constructor. -/
lemma core_call_lines (function_identifier maker_code function_decl : String)
    (req : CreationRequest) (closure_variables : List Variable) (s : CGState) :
    ((generateFunctionCreationCodeCore function_identifier maker_code function_decl
        req closure_variables s).2.filter isMakeFunctionCall).length = 1
    ∧ (∀ l ∈ (generateFunctionCreationCodeCore function_identifier maker_code
          function_decl req closure_variables s).2,
        ∀ t f a, l = CodeLine.makeFunctionCall t f a → f = function_identifier) := by
  have hrel := release_keeps_helpers req.annotations_name
    (getFunctionCreationCode req.to_name function_identifier req.defaults_name
      req.kw_defaults_name req.annotations_name closure_variables
      (if hasHelperCode s function_identifier then s
       else addDeclaration (addHelperCode s function_identifier maker_code)
         function_identifier function_decl)).1
  have hshape : (generateFunctionCreationCodeCore function_identifier maker_code
      function_decl req closure_variables s).2
      = (getFunctionCreationCode req.to_name function_identifier req.defaults_name
          req.kw_defaults_name req.annotations_name closure_variables
          (if hasHelperCode s function_identifier then s
           else addDeclaration (addHelperCode s function_identifier maker_code)
             function_identifier function_decl)).2
        ++ (getReleaseCode req.annotations_name
            (getFunctionCreationCode req.to_name function_identifier req.defaults_name
              req.kw_defaults_name req.annotations_name closure_variables
              (if hasHelperCode s function_identifier then s
               else addDeclaration (addHelperCode s function_identifier maker_code)
                 function_identifier function_decl)).1).2 := rfl
  have hcall : ∀ (s' : CGState),
      (getFunctionCreationCode req.to_name function_identifier req.defaults_name
        req.kw_defaults_name req.annotations_name closure_variables s').2
      = [CodeLine.makeFunctionCall req.to_name function_identifier
          (joinComma ((match req.defaults_name with
            | some d => [getReferenceExportCode d]
            | none => [])
          ++ (match req.kw_defaults_name with
              | some k => [k]
              | none => [])
          ++ (match req.annotations_name with
              | some a => [a]
              | none => [])
          ++ getClosureVariableProvisionCode closure_variables))] := fun _ => rfl
  have hrelshape : ∀ l ∈ (getReleaseCode req.annotations_name
      (getFunctionCreationCode req.to_name function_identifier req.defaults_name
        req.kw_defaults_name req.annotations_name closure_variables
        (if hasHelperCode s function_identifier then s
         else addDeclaration (addHelperCode s function_identifier maker_code)
           function_identifier function_decl)).1).2, ∃ n, l = CodeLine.decrefLine n := by
    rcases req.annotations_name with _ | n
    · intro l hl
      simp [getReleaseCode] at hl
    · intro l hl
      by_cases h : needsCleanup (getFunctionCreationCode req.to_name
          function_identifier req.defaults_name req.kw_defaults_name
          (some n) closure_variables
          (if hasHelperCode s function_identifier then s
           else addDeclaration (addHelperCode s function_identifier maker_code)
             function_identifier function_decl)).1 n
      · simp only [getReleaseCode, h, if_true, List.mem_singleton] at hl
        exact ⟨n, hl⟩
      · simp [getReleaseCode, h] at hl
  constructor
  · rw [hshape, List.filter_append, hcall, hrel.2.2]
    simp [isMakeFunctionCall]
  · rw [hshape]
    intro l hl t f a hla
    rcases List.mem_append.mp hl with hl | hl
    · rw [hcall] at hl
      rcases List.mem_singleton.mp hl with rfl
      exact (CodeLine.makeFunctionCall.injEq _ _ _ _ _ _).mp hla.symm |>.2.1
    · obtain ⟨n, rfl⟩ := hrelshape l hl
      exact absurd hla (by simp)

/-- Once the identity is registered, further runs never touch the
helper codes or declarations again. -/
lemma run_keeps_when_registered (function_identifier maker_code function_decl : String)
    (closure_variables : List Variable) (reqs : List CreationRequest) :
    ∀ s : CGState, hasHelperCode s function_identifier = true →
      (runCreationRequests function_identifier maker_code function_decl
          closure_variables reqs s).1.helper_codes = s.helper_codes
      ∧ (runCreationRequests function_identifier maker_code function_decl
          closure_variables reqs s).1.declarations = s.declarations := by
  induction reqs with
  | nil =>
    intro s _
    exact ⟨rfl, rfl⟩
  | cons req rest ih =>
    intro s h
    have hc := core_helper_effect function_identifier maker_code function_decl
      req closure_variables s
    have hh : (generateFunctionCreationCodeCore function_identifier maker_code
        function_decl req closure_variables s).1.helper_codes = s.helper_codes := by
      rw [hc.1]
      simp [h]
    have hd : (generateFunctionCreationCodeCore function_identifier maker_code
        function_decl req closure_variables s).1.declarations = s.declarations := by
      rw [hc.2.1]
      simp [h]
    have hrec := ih (generateFunctionCreationCodeCore function_identifier maker_code
      function_decl req closure_variables s).1 hc.2.2
    exact ⟨hrec.1.trans hh, hrec.2.trans hd⟩

/-- A run over any request list emits one constructor-call line per
request, and every constructor-call line names this identity. -/
lemma run_call_lines (function_identifier maker_code function_decl : String)
    (closure_variables : List Variable) (reqs : List CreationRequest) :
    ∀ s : CGState,
      ((runCreationRequests function_identifier maker_code function_decl
          closure_variables reqs s).2.filter isMakeFunctionCall).length = reqs.length
      ∧ (∀ l ∈ (runCreationRequests function_identifier maker_code function_decl
            closure_variables reqs s).2,
          ∀ t f a, l = CodeLine.makeFunctionCall t f a → f = function_identifier) := by
  induction reqs with
  | nil =>
    intro s
    refine ⟨rfl, ?_⟩
    intro l hl
    simp [runCreationRequests] at hl
  | cons req rest ih =>
    intro s
    have hcore := core_call_lines function_identifier maker_code function_decl
      req closure_variables s
    have hrec := ih (generateFunctionCreationCodeCore function_identifier maker_code
      function_decl req closure_variables s).1
    have hshape : (runCreationRequests function_identifier maker_code function_decl
        closure_variables (req :: rest) s).2
        = (generateFunctionCreationCodeCore function_identifier maker_code
            function_decl req closure_variables s).2
          ++ (runCreationRequests function_identifier maker_code function_decl
              closure_variables rest (generateFunctionCreationCodeCore
                function_identifier maker_code function_decl req
                closure_variables s).1).2 := rfl
    constructor
    · rw [hshape, List.filter_append, List.length_append, hcore.1, hrec.1]
      simp [Nat.add_comm]
    · rw [hshape]
      intro l hl t f a hla
      rcases List.mem_append.mp hl with hl | hl
      · exact hcore.2 l hl t f a hla
      · exact hrec.2 l hl t f a hla

/-- The single line `getFunctionCreationCode` emits with all three
optional names present. -/
lemma creation_emitted (to_name function_identifier dn kn an : String)
    (closure_variables : List Variable) (s0 : CGState) :
    (getFunctionCreationCode to_name function_identifier (some dn) (some kn)
        (some an) closure_variables s0).2
      = [CodeLine.makeFunctionCall to_name function_identifier
          (joinComma (getReferenceExportCode dn :: kn :: an
            :: getClosureVariableProvisionCode closure_variables))] := rfl

/-! ## Theorems -/

/-- C2: for every combination of optional defaults / kw-defaults /
annotations names and every ordered closure-variable list, the
constructor declaration's argument list has length
`#defaults-present + #kw_defaults-present + #annotations-present +
len(closure_vars)`, and lists, in fixed order, the defaults pointer,
the keyword-defaults pointer, the annotations pointer (each when
present), then one cell parameter per closure variable in source
order. -/
theorem functionCreationArgs_arity_and_order
    (defaults_name kw_defaults_name annotations_name : Option String)
    (closure_variables : List Variable) :
    (_getFunctionCreationArgs defaults_name kw_defaults_name annotations_name
        closure_variables).length =
      presentCount defaults_name + presentCount kw_defaults_name
        + presentCount annotations_name + closure_variables.length
    ∧ (_getFunctionCreationArgs defaults_name kw_defaults_name annotations_name
        closure_variables).take
          (presentCount defaults_name + presentCount kw_defaults_name
            + presentCount annotations_name) =
        (if defaults_name.isSome then ["PyObject *defaults"] else [])
        ++ (if kw_defaults_name.isSome then ["PyObject *kw_defaults"] else [])
        ++ (if annotations_name.isSome then ["PyObject *annotations"] else [])
    ∧ (_getFunctionCreationArgs defaults_name kw_defaults_name annotations_name
        closure_variables).drop
          (presentCount defaults_name + presentCount kw_defaults_name
            + presentCount annotations_name) =
        closure_variables.map (fun v => "PyCellObject *" ++ getVariableCodeName true v) := by
  rcases defaults_name with _ | d <;> rcases kw_defaults_name with _ | k <;>
    rcases annotations_name with _ | a <;>
    simp [_getFunctionCreationArgs, presentCount] <;> omega

/-- C1: when one callable identity is requested for construction N ≥ 1
times in a compilation unit whose context does not yet register it, the
maker body and its forward declaration end up in the context exactly
once, while every one of the N emitted constructor-call lines invokes
the same constructor `MAKE_FUNCTION_<identity>`. -/
theorem single_emission_per_identity
    (function_identifier maker_code function_decl : String)
    (closure_variables : List Variable) (reqs : List CreationRequest)
    (s0 : CGState)
    (hfresh : hasHelperCode s0 function_identifier = false)
    (hdecl : countDecl s0 function_identifier = 0)
    (hne : reqs ≠ []) :
    countHelper (runCreationRequests function_identifier maker_code function_decl
        closure_variables reqs s0).1 function_identifier = 1
    ∧ countDecl (runCreationRequests function_identifier maker_code function_decl
        closure_variables reqs s0).1 function_identifier = 1
    ∧ ((runCreationRequests function_identifier maker_code function_decl
        closure_variables reqs s0).2.filter isMakeFunctionCall).length = reqs.length
    ∧ (∀ l ∈ (runCreationRequests function_identifier maker_code function_decl
          closure_variables reqs s0).2,
        ∀ t f a, l = CodeLine.makeFunctionCall t f a → f = function_identifier) := by
  rcases reqs with _ | ⟨req, rest⟩
  · exact absurd rfl hne
  have hc := core_helper_effect function_identifier maker_code function_decl
    req closure_variables s0
  have hh : (generateFunctionCreationCodeCore function_identifier maker_code
      function_decl req closure_variables s0).1.helper_codes
      = s0.helper_codes ++ [(function_identifier, maker_code)] := by
    rw [hc.1]
    simp [hfresh]
  have hd : (generateFunctionCreationCodeCore function_identifier maker_code
      function_decl req closure_variables s0).1.declarations
      = s0.declarations ++ [(function_identifier, function_decl)] := by
    rw [hc.2.1]
    simp [hfresh]
  have hkeep := run_keeps_when_registered function_identifier maker_code
    function_decl closure_variables rest
    (generateFunctionCreationCodeCore function_identifier maker_code function_decl
      req closure_variables s0).1 hc.2.2
  have hzero : (s0.helper_codes.filter
      (fun p => p.1 == function_identifier)).length = 0 := by
    have := (List.any_eq_false).mp hfresh
    simp only [List.length_eq_zero, List.filter_eq_nil_iff]
    exact this
  have hshape1 : (runCreationRequests function_identifier maker_code function_decl
      closure_variables (req :: rest) s0).1
      = (runCreationRequests function_identifier maker_code function_decl
          closure_variables rest (generateFunctionCreationCodeCore
            function_identifier maker_code function_decl req
            closure_variables s0).1).1 := rfl
  refine ⟨?_, ?_, (run_call_lines function_identifier maker_code function_decl
      closure_variables (req :: rest) s0).1,
    (run_call_lines function_identifier maker_code function_decl
      closure_variables (req :: rest) s0).2⟩
  · rw [countHelper, hshape1, hkeep.1, hh]
    simp [hzero]
  · rw [countDecl, hshape1, hkeep.2, hd]
    rw [countDecl] at hdecl
    simp only [List.filter_append, List.length_append, hdecl]
    simp

/-- C1 witness: two creation requests against a fresh context register
the maker once and emit two call lines. -/
theorem single_emission_per_identity_witness :
    (hasHelperCode (⟨[], [], []⟩ : CGState) "f1" = false)
    ∧ countHelper (runCreationRequests "f1" "mk_body" "mk_decl" []
        [⟨"tmp1", none, none, none⟩, ⟨"tmp2", none, none, none⟩]
        ⟨[], [], []⟩).1 "f1" = 1 := by
  have h := single_emission_per_identity "f1" "mk_body" "mk_decl" []
    [⟨"tmp1", none, none, none⟩, ⟨"tmp2", none, none, none⟩]
    ⟨[], [], []⟩ (by decide) (by decide) (by decide)
  exact ⟨by decide, h.1⟩

/-- C3: after the constructor call, a tracked defaults temp and a tracked
kw-defaults temp leave the cleanup ledger with no release code emitted
for them (ownership moved into the constructed object); the annotations
temp is still tracked right after the call and is instead removed by an
explicit release emitted immediately after the constructor call; no
other ledger entry present at entry is removed by these steps. -/
theorem creation_ownership_transfer
    (to_name function_identifier dn kn an : String)
    (closure_variables : List Variable) (s0 : CGState)
    (hnodup : s0.cleanup_names.Nodup)
    (hto : to_name ∉ s0.cleanup_names)
    (hdk : dn ≠ kn) (hda : dn ≠ an) (hka : kn ≠ an)
    (htd : to_name ≠ dn) (htk : to_name ≠ kn) (hta : to_name ≠ an) :
    (dn ∈ s0.cleanup_names →
      dn ∉ (getReleaseCode (some an) (getFunctionCreationCode to_name
          function_identifier (some dn) (some kn) (some an) closure_variables
          s0).1).1.cleanup_names
      ∧ CodeLine.decrefLine dn ∉
          (getFunctionCreationCode to_name function_identifier (some dn) (some kn)
            (some an) closure_variables s0).2
          ++ (getReleaseCode (some an) (getFunctionCreationCode to_name
              function_identifier (some dn) (some kn) (some an) closure_variables
              s0).1).2)
    ∧ (kn ∈ s0.cleanup_names →
      kn ∉ (getReleaseCode (some an) (getFunctionCreationCode to_name
          function_identifier (some dn) (some kn) (some an) closure_variables
          s0).1).1.cleanup_names
      ∧ CodeLine.decrefLine kn ∉
          (getFunctionCreationCode to_name function_identifier (some dn) (some kn)
            (some an) closure_variables s0).2
          ++ (getReleaseCode (some an) (getFunctionCreationCode to_name
              function_identifier (some dn) (some kn) (some an) closure_variables
              s0).1).2)
    ∧ (an ∈ s0.cleanup_names →
      an ∈ (getFunctionCreationCode to_name function_identifier (some dn) (some kn)
          (some an) closure_variables s0).1.cleanup_names
      ∧ (getFunctionCreationCode to_name function_identifier (some dn) (some kn)
          (some an) closure_variables s0).2
        ++ (getReleaseCode (some an) (getFunctionCreationCode to_name
            function_identifier (some dn) (some kn) (some an) closure_variables
            s0).1).2
        = [CodeLine.makeFunctionCall to_name function_identifier
            (joinComma (getReferenceExportCode dn :: kn :: an
              :: getClosureVariableProvisionCode closure_variables)),
           CodeLine.decrefLine an]
      ∧ an ∉ (getReleaseCode (some an) (getFunctionCreationCode to_name
          function_identifier (some dn) (some kn) (some an) closure_variables
          s0).1).1.cleanup_names)
    ∧ (∀ n ∈ s0.cleanup_names, n ≠ dn → n ≠ kn → n ≠ an →
        n ∈ (getReleaseCode (some an) (getFunctionCreationCode to_name
          function_identifier (some dn) (some kn) (some an) closure_variables
          s0).1).1.cleanup_names) := by
  have hspec := creation_cleanup_spec to_name function_identifier dn kn an
    closure_variables s0 hnodup hto
  set S3 := (getFunctionCreationCode to_name function_identifier (some dn) (some kn)
    (some an) closure_variables s0).1 with hS3
  have hS3nodup := hspec.1
  have hS3mem := hspec.2
  by_cases hanin : an ∈ s0.cleanup_names
  · have hanS3 : an ∈ S3.cleanup_names :=
      (hS3mem an).mpr (Or.inr ⟨hanin, Ne.symm hda, Ne.symm hka⟩)
    have hneed : needsCleanup S3 an = true := (needsCleanup_iff _ _).mpr hanS3
    have hQ : getReleaseCode (some an) S3
        = (removeCleanupTempName S3 an, [CodeLine.decrefLine an]) := by
      simp [getReleaseCode, hneed]
    refine ⟨fun hd => ⟨?_, ?_⟩, fun hk => ⟨?_, ?_⟩, fun _ => ⟨hanS3, ?_, ?_⟩,
      fun n hn hnd hnk hna => ?_⟩
    · rw [hQ]
      simp only [removeCleanupTempName]
      rw [List.Nodup.mem_erase_iff hS3nodup]
      intro hcon
      rcases (hS3mem dn).mp hcon.2 with h | h
      · exact htd h.symm
      · exact h.2.1 rfl
    · rw [creation_emitted, hQ]
      simp [hda]
    · rw [hQ]
      simp only [removeCleanupTempName]
      rw [List.Nodup.mem_erase_iff hS3nodup]
      intro hcon
      rcases (hS3mem kn).mp hcon.2 with h | h
      · exact htk h.symm
      · exact h.2.2 rfl
    · rw [creation_emitted, hQ]
      simp [hka]
    · rw [creation_emitted, hQ]
      rfl
    · rw [hQ]
      simp only [removeCleanupTempName]
      exact List.Nodup.not_mem_erase hS3nodup
    · rw [hQ]
      simp only [removeCleanupTempName]
      rw [List.Nodup.mem_erase_iff hS3nodup]
      exact ⟨hna, (hS3mem n).mpr (Or.inr ⟨hn, hnd, hnk⟩)⟩
  · have hanS3 : an ∉ S3.cleanup_names := by
      intro hcon
      rcases (hS3mem an).mp hcon with h | h
      · exact hta h.symm
      · exact hanin h.1
    have hneed : needsCleanup S3 an = false := by
      rcases h : needsCleanup S3 an with _ | _
      · rfl
      · exact absurd ((needsCleanup_iff _ _).mp h) hanS3
    have hQ : getReleaseCode (some an) S3 = (S3, []) := by
      simp [getReleaseCode, hneed]
    refine ⟨fun hd => ⟨?_, ?_⟩, fun hk => ⟨?_, ?_⟩, fun ha => absurd ha hanin,
      fun n hn hnd hnk hna => ?_⟩
    · rw [hQ]
      intro hcon
      rcases (hS3mem dn).mp hcon with h | h
      · exact htd h.symm
      · exact h.2.1 rfl
    · rw [creation_emitted, hQ]
      simp
    · rw [hQ]
      intro hcon
      rcases (hS3mem kn).mp hcon with h | h
      · exact htk h.symm
      · exact h.2.2 rfl
    · rw [creation_emitted, hQ]
      simp
    · rw [hQ]
      exact (hS3mem n).mpr (Or.inr ⟨hn, hnd, hnk⟩)

/-- C3 witness: with all three temps tracked, the defaults temp is gone
from the ledger after creation plus release. -/
theorem creation_ownership_transfer_witness :
    ("tmp_d" ∈ (⟨[], [], ["tmp_d", "tmp_k", "tmp_a", "x"]⟩ : CGState).cleanup_names)
    ∧ "tmp_d" ∉ (getReleaseCode (some "tmp_a")
        (getFunctionCreationCode "tmp_f" "f1" (some "tmp_d") (some "tmp_k")
          (some "tmp_a") [] ⟨[], [], ["tmp_d", "tmp_k", "tmp_a", "x"]⟩).1).1.cleanup_names := by
  have h := creation_ownership_transfer "tmp_f" "f1" "tmp_d" "tmp_k" "tmp_a" []
    ⟨[], [], ["tmp_d", "tmp_k", "tmp_a", "x"]⟩ (by decide) (by decide) (by decide)
    (by decide) (by decide) (by decide) (by decide) (by decide)
  exact ⟨by decide, (h.1 (by decide)).1⟩

/-- C4: in a direct inline call, an argument temp that is a tracked
cleanup obligation is removed from the ledger with no reference-count
increment emitted for it, while an untracked argument gets a `Py_INCREF`
emitted before the call line — the callee always receives one full
reference either way.  The emitted lines are the increments, then the
call, then the error check. -/
theorem direct_call_argument_ownership
    (to_name entry_identifier : String) (arg_names : List String)
    (closure_variables : List Variable) (needs_check : Bool) (s0 : CGState)
    (hs : s0.cleanup_names.Nodup) (ha : arg_names.Nodup)
    (hto : to_name ∉ arg_names) :
    (getDirectFunctionCallCode to_name entry_identifier arg_names
        closure_variables needs_check s0).2
      = (directCallArgLoop arg_names s0).2
        ++ [CodeLine.directCallLine to_name entry_identifier
            (joinComma (arg_names ++ getClosureVariableProvisionCode closure_variables))]
        ++ getErrorExitCode to_name needs_check
    ∧ ∀ arg ∈ arg_names,
      (arg ∈ s0.cleanup_names →
        arg ∉ (getDirectFunctionCallCode to_name entry_identifier arg_names
            closure_variables needs_check s0).1.cleanup_names
        ∧ CodeLine.increfLine arg ∉ (getDirectFunctionCallCode to_name
            entry_identifier arg_names closure_variables needs_check s0).2)
      ∧ (arg ∉ s0.cleanup_names →
        CodeLine.increfLine arg ∈ (getDirectFunctionCallCode to_name
            entry_identifier arg_names closure_variables needs_check s0).2) := by
  obtain ⟨hn1, hm1, he1, hsh1⟩ := directCallArgLoop_spec arg_names s0 hs ha
  have hstate : (getDirectFunctionCallCode to_name entry_identifier arg_names
      closure_variables needs_check s0).1
      = addCleanupTempName (directCallPostLoop arg_names
          (directCallArgLoop arg_names s0).1) to_name := rfl
  have hlines : (getDirectFunctionCallCode to_name entry_identifier arg_names
      closure_variables needs_check s0).2
      = (directCallArgLoop arg_names s0).2
        ++ [CodeLine.directCallLine to_name entry_identifier
            (joinComma (arg_names ++ getClosureVariableProvisionCode closure_variables))]
        ++ getErrorExitCode to_name needs_check := rfl
  refine ⟨hlines, fun arg harg => ⟨fun htracked => ⟨?_, ?_⟩, fun hfree => ?_⟩⟩
  · rw [hstate]
    simp only [addCleanupTempName, List.mem_append, List.mem_singleton]
    rintro (hin | rfl)
    · have hloop := directCallPostLoop_subset arg_names
        (directCallArgLoop arg_names s0).1 arg hin
      exact ((hm1 arg).mp hloop).2 harg
    · exact hto harg
  · rw [hlines]
    simp only [List.mem_append]
    rintro ((hin | hin) | hin)
    · exact ((he1 arg).mp hin).2 htracked
    · simp at hin
    · rcases needs_check with _ | _ <;> simp [getErrorExitCode] at hin
  · rw [hlines]
    refine List.mem_append_left _ (List.mem_append_left _ ?_)
    exact (he1 arg).mpr ⟨harg, hfree⟩

/-- C4 witness: with one tracked and one untracked argument, the tracked
one leaves the ledger while the untracked one gets an increment. -/
theorem direct_call_argument_ownership_witness :
    ("tmp_a" ∈ (⟨[], [], ["tmp_a", "x"]⟩ : CGState).cleanup_names)
    ∧ "tmp_a" ∉ (getDirectFunctionCallCode "tmp_r" "impl_f" ["tmp_a", "tmp_b"]
        [] true ⟨[], [], ["tmp_a", "x"]⟩).1.cleanup_names := by
  have h := direct_call_argument_ownership "tmp_r" "impl_f" ["tmp_a", "tmp_b"]
    [] true ⟨[], [], ["tmp_a", "x"]⟩ (by decide) (by decide) (by decide)
  exact ⟨by decide, ((h.2 "tmp_a" (by decide)).1 (by decide)).1⟩

/-- C5: the generator resumable-body exit fragment contains the
exception-exit block iff `needs_exception_exit` (else the no-exception
exit), contains the generator-return block, appended after, iff
`needs_generator_return`, and the four flag combinations give four
distinct outputs. -/
theorem generatorExit_composition :
    ∀ e r : Bool,
      (GenExitTemplate.exceptionExit ∈ generatorExit e r ↔ e = true)
      ∧ (GenExitTemplate.noexceptionExit ∈ generatorExit e r ↔ e = false)
      ∧ (GenExitTemplate.returnExit ∈ generatorExit e r ↔ r = true)
      ∧ (r = true → generatorExit e r =
          generatorExit e false ++ [GenExitTemplate.returnExit])
      ∧ (∀ e' r' : Bool, generatorExit e r = generatorExit e' r' →
          e = e' ∧ r = r') := by
  decide

/-- C6: in the generator construction path, a non-empty parameter list
yields the with-parameters template whose copy block writes slot `i`
from parameter `i` — boxing it into a fresh cell via `PyCell_NEW1` when
the variable is shared, copying the plain reference otherwise — while an
empty parameter list yields the no-parameters template, which declares
no parameter array. -/
theorem generator_parameter_array (parameter_variables : List Variable) :
    (parameter_variables.length = 0 →
      parametersDecl parameter_variables = ParametersDecl.noParameters)
    ∧ (0 < parameter_variables.length →
      parametersDecl parameter_variables =
        ParametersDecl.withParameters (parameterCopy parameter_variables)
          parameter_variables.length)
    ∧ (parameterCopy parameter_variables).length = parameter_variables.length
    ∧ (∀ i : Nat, ∀ v : Variable, parameter_variables.get? i = some v →
        (parameterCopy parameter_variables).get? i = some
          (if v.shared then
            "parameters[" ++ toString i
              ++ "] = (PyObject *)PyCell_NEW1( _python_par_" ++ v.name ++ " );"
           else
            "parameters[" ++ toString i ++ "] = _python_par_" ++ v.name ++ ";")) := by
  refine ⟨fun h => ?_, fun h => ?_, ?_, fun i v hv => ?_⟩
  · simp [parametersDecl, h]
  · simp [parametersDecl, h]
  · simp [parameterCopy]
  · have hv' : parameter_variables[i]? = some v := by
      simpa [List.get?_eq_getElem?] using hv
    simp [parameterCopy, List.get?_eq_getElem?, List.getElem?_map,
      List.getElem?_enum, hv', parameterCopyLine]

/-- C6 witness: a shared first parameter and a plain second parameter
give a boxed slot 0 and a plain slot 1. -/
theorem generator_parameter_array_witness :
    (([⟨"a", true⟩, ⟨"b", false⟩] : List Variable).get? 0 = some ⟨"a", true⟩)
    ∧ (parameterCopy [⟨"a", true⟩, ⟨"b", false⟩]).get? 0 =
        some "parameters[0] = (PyObject *)PyCell_NEW1( _python_par_a );" := by
  refine ⟨rfl, ?_⟩
  have h := (generator_parameter_array [⟨"a", true⟩, ⟨"b", false⟩]).2.2.2 0
    ⟨"a", true⟩ rfl
  simpa using h

/-- C7: the plain-function exit section always begins with the
must-not-reach-here guard, contains the exception-exit block iff
`needs_exception_exit`, and contains the return-value exit block iff a
`return_value` temporary was allocated. -/
theorem functionExit_composition :
    ∀ e r : Bool,
      (functionExit e r).head? = some FnExitPart.mustNotGetHere
      ∧ (FnExitPart.exceptionExit ∈ functionExit e r ↔ e = true)
      ∧ (FnExitPart.returnExit ∈ functionExit e r ↔ r = true) := by
  decide

/-- C8: in both the function-maker and the generator-object paths the
qualified-name slot is `NULL` (the plain name applies) exactly when the
qualified name equals the plain name or the target runtime lacks
qualified-name support (the capability realized by the encoded-version
comparison against 330); otherwise the qualified-name constant is
used. -/
theorem qualname_omission (python_version : Nat)
    (qualname name qualname_constant_code : String)
    (hnn : qualname_constant_code ≠ "NULL") :
    (function_qualname_obj python_version qualname name qualname_constant_code = "NULL"
      ↔ (hasQualnameSupport python_version = false ∨ qualname = name))
    ∧ (generator_qualname_obj python_version qualname name qualname_constant_code = "NULL"
      ↔ (hasQualnameSupport python_version = false ∨ qualname = name)) := by
  constructor <;>
  · simp only [function_qualname_obj, generator_qualname_obj, hasQualnameSupport,
      decide_eq_false_iff_not, Nat.not_le]
    by_cases h : python_version < 330 || qualname == name
    · simp only [h, if_true]
      simp only [Bool.or_eq_true, decide_eq_true_eq, beq_iff_eq] at h
      simpa using h
    · simp only [h, if_false]
      simp only [Bool.or_eq_true, decide_eq_true_eq, beq_iff_eq] at h
      push_neg at h
      simp [hnn, h.1, h.2]

/-- C8 witness: at version 330 with distinct plain and qualified names
and a non-`NULL` constant code, the slot is not omitted. -/
theorem qualname_omission_witness :
    ("c_qn" ≠ "NULL")
    ∧ (function_qualname_obj 330 "a.b" "b" "c_qn" = "NULL"
        ↔ (hasQualnameSupport 330 = false ∨ "a.b" = "b")) :=
  ⟨by decide, (qualname_omission 330 "a.b" "b" "c_qn" (by decide)).1⟩

/-- C9: keyword-defaults that are a statically-known constant equal to
the empty mapping trip the compile-aborting assertion, and only those:
absent keyword-defaults, non-constant expressions, and constants other
than the empty mapping pass. -/
theorem kwDefaults_empty_assertion (kw_defaults : Option KwDefaultsExpr) :
    (∃ e, handleKwDefaults kw_defaults = Except.error e)
      ↔ (∃ kd, kw_defaults = some kd ∧ kd.is_constant_ref = true
            ∧ kd.constant = PyConstant.dict []) := by
  rcases kw_defaults with _ | kd
  · simp [handleKwDefaults]
  · by_cases h : kd.is_constant_ref && kd.constant == PyConstant.dict []
    · simp only [Bool.and_eq_true, beq_iff_eq] at h
      simp [handleKwDefaults, h.1, h.2]
    · simp only [Bool.and_eq_true, beq_iff_eq, not_and_or] at h
      rcases h with h | h <;> simp [handleKwDefaults, h]

/-- C10: absence is not uniform in the maker body: in both the
with-context and without-context templates a missing defaults or
kw-defaults temp fills its slot with the literal `NULL`, while missing
annotations fill their slot with the materialized empty-dict constant
(and present names fill the corresponding parameter names). -/
theorem maker_absent_slot_representation (python_version : Nat)
    (function_name function_qualname qualname_constant_code : String)
    (closure_variables : List Variable)
    (defaults_name kw_defaults_name annotations_name : Option String)
    (empty_dict_constant_code : String) (is_generator : Bool) :
    (defaults_name = none →
      (getFunctionMakerCode python_version function_name function_qualname
        qualname_constant_code closure_variables defaults_name kw_defaults_name
        annotations_name empty_dict_constant_code is_generator).defaults = "NULL")
    ∧ (kw_defaults_name = none →
      (getFunctionMakerCode python_version function_name function_qualname
        qualname_constant_code closure_variables defaults_name kw_defaults_name
        annotations_name empty_dict_constant_code is_generator).kw_defaults = "NULL")
    ∧ (annotations_name = none →
      (getFunctionMakerCode python_version function_name function_qualname
        qualname_constant_code closure_variables defaults_name kw_defaults_name
        annotations_name empty_dict_constant_code is_generator).annotations =
        empty_dict_constant_code)
    ∧ (defaults_name.isSome →
      (getFunctionMakerCode python_version function_name function_qualname
        qualname_constant_code closure_variables defaults_name kw_defaults_name
        annotations_name empty_dict_constant_code is_generator).defaults = "defaults")
    ∧ (annotations_name.isSome →
      (getFunctionMakerCode python_version function_name function_qualname
        qualname_constant_code closure_variables defaults_name kw_defaults_name
        annotations_name empty_dict_constant_code is_generator).annotations =
        "annotations") := by
  rcases closure_variables with _ | ⟨c, cs⟩ <;>
    refine ⟨fun hd => ?_, fun hk => ?_, fun ha => ?_, fun hd => ?_, fun ha => ?_⟩ <;>
    simp_all [getFunctionMakerCode]

/-- C10 witness: with no closure, all three names absent, the defaults
slot is the literal `NULL` while the annotations slot is the empty-dict
constant code. -/
theorem maker_absent_slot_representation_witness :
    ((none : Option String) = none)
    ∧ (getFunctionMakerCode 330 "f" "f" "c_qn" [] none none none
        "const_dict_empty" false).defaults = "NULL" := by
  refine ⟨rfl, ?_⟩
  have h := maker_absent_slot_representation 330 "f" "f" "c_qn" [] none none none
    "const_dict_empty" false
  exact h.1 rfl

end FunctionCodes
